import Mathlib

/- Shallow embedding of the clinic-backend core model: the multi-branch
inventory stock ledger (src/models/Inventory.ts and
src/controllers/inventoryController.ts), the warehouse store with its
MAIN-per-branch enforcement (WarehouseController together with the
Warehouse model's pre-save hook), default-warehouse provisioning for new
branches, and the clinic-hierarchy creation procedure (ClinicController
together with src/utils/clinicValidation.ts).

Object ids (Mongo ObjectIds) are modelled as naturals; JS numbers holding
stock quantities are modelled as integers (Math.abs becomes Int abs,
Math.max(0, x) becomes max 0 x). Mongo collections are modelled as lists
of records, findOne/find? returning the first match. -/

namespace ClincBackend

/-- Warehouse type enum from the Warehouse schema: 'MAIN' | 'SUB'. -/
inductive WType
| MAIN
| SUB
deriving DecidableEq, Repr

/-- Warehouse status enum from the Warehouse schema: 'ACTIVE' | 'INACTIVE'. -/
inductive WStatus
| ACTIVE
| INACTIVE
deriving DecidableEq, Repr

/-- A Warehouse document (src Warehouse model). `deleted` models
`deleted_at != null` (soft delete). -/
structure Warehouse where
  id : Nat
  tenant_id : Nat
  name : String
  wtype : WType
  status : WStatus
  assignedBranches : List Nat
  managerUserId : Option Nat
  isShared : Bool
  deleted : Bool
deriving DecidableEq, Repr

/-- `Warehouse.findById`: lookup by `_id` only (no tenant or soft-delete
filter, exactly as `mongoose` findById is used in Inventory.updateStock). -/
def findWarehouseById (wdb : List Warehouse) (wid : Nat) : Option Warehouse :=
  wdb.find? (fun w => decide (w.id = wid))

/-- One `stockByBranchWarehouse` array element of an inventory item. -/
structure StockEntry where
  branchId : Nat
  warehouseId : Nat
  stock : Int
deriving DecidableEq, Repr

/-- The parts of an Inventory document that the stock-ledger algorithm
reads and writes: the legacy scalar `current_stock` and the per
branch/warehouse entries. -/
structure InventoryItem where
  current_stock : Int
  stockByBranchWarehouse : List StockEntry
deriving DecidableEq, Repr

/-- Stock operation: 'add' | 'subtract'. -/
inductive StockOp
| add
| subtract
deriving DecidableEq, Repr

/-- The global (legacy / shared-warehouse) stock mutation of
InventorySchema.methods.updateStock:
add: `current_stock += Math.abs(quantity)`;
subtract: `current_stock = Math.max(0, current_stock - Math.abs(quantity))`. -/
def globalStockUpdate (cur q : Int) (op : StockOp) : Int :=
  match op with
  | .add => cur + |q|
  | .subtract => max 0 (cur - |q|)

/-- The `(branchId, warehouseId)` key comparison used by the `find`
callbacks in Inventory.ts (toString equality of the two ObjectIds). -/
def entryKeyMatches (b w : Nat) (e : StockEntry) : Bool :=
  decide (e.branchId = b ∧ e.warehouseId = w)

/-- Mutating the first entry found by
`this.stockByBranchWarehouse.find(...)`: only the first matching entry
has `f` applied to its stock, everything else is untouched. -/
def updateFirstEntry (b w : Nat) (f : Int → Int) : List StockEntry → List StockEntry
  | [] => []
  | e :: rest =>
    if entryKeyMatches b w e then ⟨e.branchId, e.warehouseId, f e.stock⟩ :: rest
    else e :: updateFirstEntry b w f rest

/-- The per-entry mutation applied by updateStock to an existing
non-shared entry. -/
def entryStockUpdate (q : Int) (op : StockOp) (s : Int) : Int :=
  match op with
  | .add => s + |q|
  | .subtract => max 0 (s - |q|)

/-- The `initialStock` computed when updateStock must create a brand-new
`stockByBranchWarehouse` entry (Inventory.ts lines 252-269). -/
def newEntryInitialStock (item : InventoryItem) (q : Int) (op : StockOp) : Int :=
  match op with
  | .add => |q|
  | .subtract =>
    if item.stockByBranchWarehouse.length = 0 ∧ 0 < item.current_stock then
      max 0 (item.current_stock - |q|)
    else 0

/-- InventorySchema.methods.updateStock (Inventory.ts lines 200-294).
`branchId`/`warehouseId` are optional; when both are present the
warehouse is looked up to decide between the shared (global) and the
non-shared (per branch/warehouse) accounting branch. -/
def InventoryItem.updateStock (wdb : List Warehouse) (item : InventoryItem)
    (q : Int) (op : StockOp) (branchId warehouseId : Option Nat) : InventoryItem :=
  match branchId, warehouseId with
  | some b, some w =>
    match findWarehouseById wdb w with
    | none =>
      -- warehouse not found: fallback to global update
      ⟨globalStockUpdate item.current_stock q op, item.stockByBranchWarehouse⟩
    | some wh =>
      if wh.isShared then
        ⟨globalStockUpdate item.current_stock q op, item.stockByBranchWarehouse⟩
      else
        if (item.stockByBranchWarehouse.find? (entryKeyMatches b w)).isSome then
          ⟨item.current_stock,
            updateFirstEntry b w (entryStockUpdate q op) item.stockByBranchWarehouse⟩
        else
          ⟨item.current_stock,
            item.stockByBranchWarehouse ++ [⟨b, w, newEntryInitialStock item q op⟩]⟩
  | _, _ =>
    ⟨globalStockUpdate item.current_stock q op, item.stockByBranchWarehouse⟩

/-- One stock-update request (quantity, operation, optional scope). -/
structure StockCall where
  q : Int
  op : StockOp
  branchId : Option Nat
  warehouseId : Option Nat
deriving DecidableEq, Repr

/-- A sequence of updateStock calls applied in order to one item. -/
def applyStockCalls (wdb : List Warehouse) (item : InventoryItem)
    (calls : List StockCall) : InventoryItem :=
  calls.foldl (fun it c => it.updateStock wdb c.q c.op c.branchId c.warehouseId) item

/-- Non-negativity of all stock counters of an item. -/
def NonNegItem (item : InventoryItem) : Prop :=
  0 ≤ item.current_stock ∧ ∀ e ∈ item.stockByBranchWarehouse, 0 ≤ e.stock

instance (item : InventoryItem) : Decidable (NonNegItem item) := by
  unfold NonNegItem; infer_instance

lemma globalStockUpdate_nonneg {cur q : Int} {op : StockOp} (h : 0 ≤ cur) :
    0 ≤ globalStockUpdate cur q op := by
  cases op
  · exact add_nonneg h (abs_nonneg q)
  · exact le_max_left 0 _

lemma entryStockUpdate_nonneg {q s : Int} {op : StockOp} (h : 0 ≤ s) :
    0 ≤ entryStockUpdate q op s := by
  cases op
  · exact add_nonneg h (abs_nonneg q)
  · exact le_max_left 0 _

lemma newEntryInitialStock_nonneg (item : InventoryItem) (q : Int) (op : StockOp) :
    0 ≤ newEntryInitialStock item q op := by
  cases op <;> simp only [newEntryInitialStock]
  · exact abs_nonneg q
  · split
    · exact le_max_left (0 : Int) _
    · exact le_refl (0 : Int)

lemma updateFirstEntry_nonneg {b w : Nat} {f : Int → Int} {l : List StockEntry}
    (hf : ∀ s, 0 ≤ s → 0 ≤ f s) (h : ∀ e ∈ l, 0 ≤ e.stock) :
    ∀ e ∈ updateFirstEntry b w f l, 0 ≤ e.stock := by
  induction l with
  | nil => intro e he; simp [updateFirstEntry] at he
  | cons a l ih =>
    intro e he
    simp only [updateFirstEntry] at he
    split at he
    · rcases List.mem_cons.mp he with rfl | hm
      · exact hf _ (h a (by simp))
      · exact h e (List.mem_cons_of_mem _ hm)
    · rcases List.mem_cons.mp he with rfl | hm
      · exact h e (by simp)
      · exact ih (fun x hx => h x (List.mem_cons_of_mem _ hx)) e hm

lemma nonNeg_updateStock (wdb : List Warehouse) (item : InventoryItem) (q : Int)
    (op : StockOp) (branchId warehouseId : Option Nat) (h : NonNegItem item) :
    NonNegItem (item.updateStock wdb q op branchId warehouseId) := by
  obtain ⟨h1, h2⟩ := h
  have hglob : NonNegItem
      ⟨globalStockUpdate item.current_stock q op, item.stockByBranchWarehouse⟩ :=
    ⟨globalStockUpdate_nonneg h1, h2⟩
  rcases branchId with _ | b <;> rcases warehouseId with _ | w
  · simpa [InventoryItem.updateStock] using hglob
  · simpa [InventoryItem.updateStock] using hglob
  · simpa [InventoryItem.updateStock] using hglob
  · rcases hfw : findWarehouseById wdb w with _ | wh
    · simpa [InventoryItem.updateStock, hfw] using hglob
    · cases hsh : wh.isShared
      · cases hfs : (item.stockByBranchWarehouse.find? (entryKeyMatches b w)).isSome
        · simp only [InventoryItem.updateStock, hfw, hsh, hfs, Bool.false_eq_true,
            if_false]
          refine ⟨h1, ?_⟩
          intro e he
          rcases List.mem_append.mp he with hm | hm
          · exact h2 e hm
          · rcases List.mem_singleton.mp hm with rfl
            exact newEntryInitialStock_nonneg item q op
        · simp only [InventoryItem.updateStock, hfw, hsh, hfs, Bool.false_eq_true,
            if_false, if_true]
          exact ⟨h1, updateFirstEntry_nonneg (fun s hs => entryStockUpdate_nonneg hs) h2⟩
      · simpa [InventoryItem.updateStock, hfw, hsh] using hglob

/-- C1: starting from non-negative `current_stock` and non-negative
`stockByBranchWarehouse` stocks, no sequence of updateStock calls with
positive quantity and operation add or subtract (with or without a
branch/warehouse scope) can make `current_stock` or any per
branch/warehouse stock negative. -/
theorem claim_C1_nonnegative_stock (wdb : List Warehouse) (item : InventoryItem)
    (calls : List StockCall) (hq : ∀ c ∈ calls, 0 < c.q) (h : NonNegItem item) :
    NonNegItem (applyStockCalls wdb item calls) := by
  induction calls generalizing item with
  | nil => simpa [applyStockCalls] using h
  | cons c cs ih =>
    have hstep := nonNeg_updateStock wdb item c.q c.op c.branchId c.warehouseId h
    have := ih (item.updateStock wdb c.q c.op c.branchId c.warehouseId)
      (fun d hd => hq d (List.mem_cons_of_mem _ hd)) hstep
    simpa [applyStockCalls, List.foldl_cons] using this

/-- Sample warehouse table: warehouse 1 is non-shared, warehouse 9 is
shared; both belong to tenant 0. -/
def sampleWdb : List Warehouse :=
  [⟨1, 0, "Downtown Warehouse", .SUB, .ACTIVE, [0, 2], none, false, false⟩,
   ⟨9, 0, "Shared Warehouse", .SUB, .ACTIVE, [0, 2], none, true, false⟩]

/-- Sample inventory item: branches 0 and 2 each track stock in the
non-shared warehouse 1 (scenario 4/5 of the spec, after one subtraction). -/
def sampleItem : InventoryItem := ⟨100, [⟨0, 1, 70⟩, ⟨2, 1, 100⟩]⟩

/-- Sample call sequence: a legacy global add, a scoped subtract, and an
over-large scoped subtract (which the ledger floors at zero). -/
def sampleCalls : List StockCall :=
  [⟨5, .add, none, none⟩, ⟨30, .subtract, some 0, some 1⟩,
   ⟨500, .subtract, some 2, some 1⟩, ⟨4, .add, some 0, some 9⟩]

theorem claim_C1_witness :
    (∀ c ∈ sampleCalls, 0 < c.q) ∧
      NonNegItem (applyStockCalls sampleWdb sampleItem sampleCalls) :=
  ⟨by decide, claim_C1_nonnegative_stock sampleWdb sampleItem sampleCalls
    (by decide) (by decide)⟩

lemma updateFirstEntry_decomp (b w : Nat) (f : Int → Int) (l : List StockEntry)
    (hex : ∃ e ∈ l, entryKeyMatches b w e = true) :
    ∃ l1 e l2, l = l1 ++ e :: l2 ∧ (∀ x ∈ l1, entryKeyMatches b w x = false) ∧
      entryKeyMatches b w e = true ∧
      updateFirstEntry b w f l = l1 ++ ⟨e.branchId, e.warehouseId, f e.stock⟩ :: l2 := by
  induction l with
  | nil => simp at hex
  | cons a l ih =>
    cases hk : entryKeyMatches b w a
    · obtain ⟨e, he, hke⟩ := hex
      rcases List.mem_cons.mp he with rfl | hm
      · rw [hk] at hke; exact absurd hke (by simp)
      · obtain ⟨l1, e', l2, hl, hl1, hke', hupd⟩ := ih ⟨e, hm, hke⟩
        refine ⟨a :: l1, e', l2, by rw [List.cons_append, ← hl], ?_, hke', ?_⟩
        · intro x hx
          rcases List.mem_cons.mp hx with rfl | hx'
          · exact hk
          · exact hl1 x hx'
        · simp only [updateFirstEntry, hk, Bool.false_eq_true, if_false,
            List.cons_append, hupd]
    · exact ⟨[], a, l, rfl, by simp, hk,
        by simp only [updateFirstEntry, hk, if_true, List.nil_append]⟩

/-- C5: an updateStock call on a non-shared warehouse whose
`(branchId, warehouseId)` entry already exists changes exactly the first
matching entry (add: `stock + q`; subtract: `max 0 (stock - q)`), while
every entry before and after it and the item's `current_stock` are left
unchanged (`current_stock` is not recomputed as a sum of the entries). -/
theorem claim_C5_nonshared_entry_frame (wdb : List Warehouse) (item : InventoryItem)
    (q : Int) (op : StockOp) (b w : Nat) (wh : Warehouse)
    (hw : findWarehouseById wdb w = some wh) (hsh : wh.isShared = false)
    (hex : ∃ e ∈ item.stockByBranchWarehouse, entryKeyMatches b w e = true)
    (hq : 0 < q) :
    (item.updateStock wdb q op (some b) (some w)).current_stock = item.current_stock ∧
    ∃ l1 e l2,
      item.stockByBranchWarehouse = l1 ++ e :: l2 ∧
      (∀ x ∈ l1, entryKeyMatches b w x = false) ∧
      entryKeyMatches b w e = true ∧
      (op = .add →
        (item.updateStock wdb q op (some b) (some w)).stockByBranchWarehouse
          = l1 ++ ⟨e.branchId, e.warehouseId, e.stock + q⟩ :: l2) ∧
      (op = .subtract →
        (item.updateStock wdb q op (some b) (some w)).stockByBranchWarehouse
          = l1 ++ ⟨e.branchId, e.warehouseId, max 0 (e.stock - q)⟩ :: l2) := by
  have habs : |q| = q := abs_of_pos hq
  have hfs : (item.stockByBranchWarehouse.find? (entryKeyMatches b w)).isSome = true :=
    List.find?_isSome.mpr hex
  have hred : item.updateStock wdb q op (some b) (some w) =
      ⟨item.current_stock,
        updateFirstEntry b w (entryStockUpdate q op) item.stockByBranchWarehouse⟩ := by
    simp only [InventoryItem.updateStock, hw, hsh, hfs, Bool.false_eq_true, if_false,
      if_true]
  obtain ⟨l1, e, l2, hl, hl1, hke, hupd⟩ :=
    updateFirstEntry_decomp b w (entryStockUpdate q op) item.stockByBranchWarehouse hex
  refine ⟨by rw [hred], l1, e, l2, hl, hl1, hke, ?_, ?_⟩
  · rintro rfl
    rw [hred]
    simpa [entryStockUpdate, habs] using hupd
  · rintro rfl
    rw [hred]
    simpa [entryStockUpdate, habs] using hupd

theorem claim_C5_witness :
    ((sampleItem.updateStock sampleWdb 30 .subtract (some 0) (some 1)).current_stock
        = sampleItem.current_stock) ∧
    ∃ l1 e l2,
      sampleItem.stockByBranchWarehouse = l1 ++ e :: l2 ∧
      (∀ x ∈ l1, entryKeyMatches 0 1 x = false) ∧
      entryKeyMatches 0 1 e = true ∧
      (StockOp.subtract = .add →
        (sampleItem.updateStock sampleWdb 30 .subtract (some 0) (some 1)).stockByBranchWarehouse
          = l1 ++ ⟨e.branchId, e.warehouseId, e.stock + 30⟩ :: l2) ∧
      (StockOp.subtract = .subtract →
        (sampleItem.updateStock sampleWdb 30 .subtract (some 0) (some 1)).stockByBranchWarehouse
          = l1 ++ ⟨e.branchId, e.warehouseId, max 0 (e.stock - 30)⟩ :: l2) :=
  claim_C5_nonshared_entry_frame sampleWdb sampleItem 30 .subtract 0 1
    ⟨1, 0, "Downtown Warehouse", .SUB, .ACTIVE, [0, 2], none, false, false⟩
    (by decide) (by decide) (by decide) (by decide)

/-- C6: an updateStock call on a non-shared warehouse with no matching
`(branchId, warehouseId)` entry appends exactly one new entry: with
stock = quantity for add; with stock = max 0 (current_stock - quantity)
for the very first subtract entry of an item that still has positive
`current_stock`; and with stock = 0 for any other subtract.
`current_stock` itself is unchanged. -/
theorem claim_C6_new_entry_creation (wdb : List Warehouse) (item : InventoryItem)
    (q : Int) (op : StockOp) (b w : Nat) (wh : Warehouse)
    (hw : findWarehouseById wdb w = some wh) (hsh : wh.isShared = false)
    (hnone : item.stockByBranchWarehouse.find? (entryKeyMatches b w) = none)
    (hq : 0 < q) :
    (item.updateStock wdb q op (some b) (some w)).current_stock = item.current_stock ∧
    (op = .add →
      (item.updateStock wdb q op (some b) (some w)).stockByBranchWarehouse
        = item.stockByBranchWarehouse ++ [⟨b, w, q⟩]) ∧
    (op = .subtract → item.stockByBranchWarehouse = [] → 0 < item.current_stock →
      (item.updateStock wdb q op (some b) (some w)).stockByBranchWarehouse
        = item.stockByBranchWarehouse ++ [⟨b, w, max 0 (item.current_stock - q)⟩]) ∧
    (op = .subtract → (item.stockByBranchWarehouse ≠ [] ∨ item.current_stock ≤ 0) →
      (item.updateStock wdb q op (some b) (some w)).stockByBranchWarehouse
        = item.stockByBranchWarehouse ++ [⟨b, w, 0⟩]) := by
  have habs : |q| = q := abs_of_pos hq
  have hfs : (item.stockByBranchWarehouse.find? (entryKeyMatches b w)).isSome = false := by
    rw [hnone]; rfl
  have hred : item.updateStock wdb q op (some b) (some w) =
      ⟨item.current_stock,
        item.stockByBranchWarehouse ++ [⟨b, w, newEntryInitialStock item q op⟩]⟩ := by
    simp only [InventoryItem.updateStock, hw, hsh, hfs, Bool.false_eq_true, if_false]
  refine ⟨by rw [hred], ?_, ?_, ?_⟩
  · rintro rfl
    rw [hred]
    simp [newEntryInitialStock, habs]
  · rintro rfl hemp hpos
    rw [hred]
    simp [newEntryInitialStock, habs, hemp, hpos]
  · rintro rfl hother
    have hcond : ¬(item.stockByBranchWarehouse.length = 0 ∧ 0 < item.current_stock) := by
      rcases hother with hne | hle
      · intro hand
        exact hne (List.length_eq_zero.mp hand.1)
      · intro hand
        exact absurd hand.2 (not_lt.mpr hle)
    simp only [hred, newEntryInitialStock]
    rw [if_neg hcond]

theorem claim_C6_witness :
    ((sampleItem.updateStock sampleWdb 25 .subtract (some 5) (some 1)).current_stock
        = sampleItem.current_stock) ∧
    (StockOp.subtract = .add →
      (sampleItem.updateStock sampleWdb 25 .subtract (some 5) (some 1)).stockByBranchWarehouse
        = sampleItem.stockByBranchWarehouse ++ [⟨5, 1, 25⟩]) ∧
    (StockOp.subtract = .subtract → sampleItem.stockByBranchWarehouse = [] →
      0 < sampleItem.current_stock →
      (sampleItem.updateStock sampleWdb 25 .subtract (some 5) (some 1)).stockByBranchWarehouse
        = sampleItem.stockByBranchWarehouse ++ [⟨5, 1, max 0 (sampleItem.current_stock - 25)⟩]) ∧
    (StockOp.subtract = .subtract →
      (sampleItem.stockByBranchWarehouse ≠ [] ∨ sampleItem.current_stock ≤ 0) →
      (sampleItem.updateStock sampleWdb 25 .subtract (some 5) (some 1)).stockByBranchWarehouse
        = sampleItem.stockByBranchWarehouse ++ [⟨5, 1, 0⟩]) :=
  claim_C6_new_entry_creation sampleWdb sampleItem 25 .subtract 5 1
    ⟨1, 0, "Downtown Warehouse", .SUB, .ACTIVE, [0, 2], none, false, false⟩
    (by decide) (by decide) (by decide) (by decide)

/-- The "available stock" computed by InventoryController.updateStock for
subtract requests (inventoryController.ts lines 529-574): shared
warehouse or missing scope resolve to `current_stock`; a non-shared
warehouse resolves to the matching `stockByBranchWarehouse` entry's
stock, falling back to `current_stock` when no entry matches; `none`
models the "Warehouse not found" rejection. -/
def availableStockFor (wdb : List Warehouse) (item : InventoryItem)
    (branchId warehouseId : Option Nat) : Option Int :=
  match branchId, warehouseId with
  | some b, some w =>
    match findWarehouseById wdb w with
    | none => none
    | some wh =>
      if wh.isShared then some item.current_stock
      else if item.stockByBranchWarehouse.isEmpty then some item.current_stock
      else
        match item.stockByBranchWarehouse.find? (entryKeyMatches b w) with
        | some e => some e.stock
        | none => some item.current_stock
  | _, _ => some item.current_stock

/-- HTTP-level responses of the stock-update boundary. -/
inductive StockResp
| invalidQuantity
| warehouseNotFound
| insufficientStock (available : Int)
| ok
deriving DecidableEq, Repr

/-- The item state and response produced by one stock-update request. -/
structure StockOutcome where
  item : InventoryItem
  resp : StockResp
deriving DecidableEq, Repr

/-- InventoryController.updateStock (inventoryController.ts lines
471-630): validate quantity, run the subtract pre-check against the
resolved available stock, then delegate to the ledger method. Error
responses return before the ledger runs, leaving the item unchanged. -/
def controllerUpdateStock (wdb : List Warehouse) (item : InventoryItem)
    (q : Int) (op : StockOp) (branchId warehouseId : Option Nat) : StockOutcome :=
  if q ≤ 0 then ⟨item, .invalidQuantity⟩
  else if op = .subtract then
    match availableStockFor wdb item branchId warehouseId with
    | none => ⟨item, .warehouseNotFound⟩
    | some avail =>
      if avail < q then ⟨item, .insufficientStock avail⟩
      else ⟨item.updateStock wdb q op branchId warehouseId, .ok⟩
  else ⟨item.updateStock wdb q op branchId warehouseId, .ok⟩

/-- C3: for subtract requests the available stock is resolved per scope
(missing branch/warehouse or shared warehouse: `current_stock`;
non-shared with a matching entry: that entry's stock; non-shared with no
matching entry: `current_stock` fallback), and a request whose quantity
exceeds it is rejected with an error carrying that available quantity
while the item is left completely unchanged. -/
theorem claim_C3_subtract_precheck (wdb : List Warehouse) (item : InventoryItem)
    (q avail : Int) (b w : Option Nat) (bId wId : Nat) (wh : Warehouse) (e : StockEntry) :
    (availableStockFor wdb item none w = some item.current_stock) ∧
    (availableStockFor wdb item b none = some item.current_stock) ∧
    (findWarehouseById wdb wId = some wh → wh.isShared = true →
      availableStockFor wdb item (some bId) (some wId) = some item.current_stock) ∧
    (findWarehouseById wdb wId = some wh → wh.isShared = false →
      item.stockByBranchWarehouse.find? (entryKeyMatches bId wId) = some e →
      availableStockFor wdb item (some bId) (some wId) = some e.stock) ∧
    (findWarehouseById wdb wId = some wh → wh.isShared = false →
      item.stockByBranchWarehouse.find? (entryKeyMatches bId wId) = none →
      availableStockFor wdb item (some bId) (some wId) = some item.current_stock) ∧
    (0 < q → availableStockFor wdb item b w = some avail → avail < q →
      controllerUpdateStock wdb item q .subtract b w = ⟨item, .insufficientStock avail⟩) := by
  refine ⟨?_, ?_, ?_, ?_, ?_, ?_⟩
  · rcases w with _ | ww <;> simp [availableStockFor]
  · rcases b with _ | bb <;> simp [availableStockFor]
  · intro hfw hsh
    simp [availableStockFor, hfw, hsh]
  · intro hfw hsh hfind
    have hne : item.stockByBranchWarehouse.isEmpty = false := by
      cases hl : item.stockByBranchWarehouse with
      | nil => rw [hl] at hfind; simp [List.find?] at hfind
      | cons a rest => simp [List.isEmpty]
    simp [availableStockFor, hfw, hsh, hne, hfind]
  · intro hfw hsh hfind
    cases hne : item.stockByBranchWarehouse.isEmpty
    · simp [availableStockFor, hfw, hsh, hne, hfind]
    · simp [availableStockFor, hfw, hsh, hne]
  · intro hq hav hlt
    have hq' : ¬q ≤ 0 := not_le.mpr hq
    simp [controllerUpdateStock, hq', hav, hlt]

theorem claim_C3_witness :
    controllerUpdateStock sampleWdb sampleItem 200 .subtract (some 0) (some 1)
      = ⟨sampleItem, .insufficientStock 70⟩ :=
  (claim_C3_subtract_precheck sampleWdb sampleItem 200 70 (some 0) (some 1) 0 1
    ⟨1, 0, "Downtown Warehouse", .SUB, .ACTIVE, [0, 2], none, false, false⟩
    ⟨0, 1, 70⟩).2.2.2.2.2 (by decide) (by decide) (by decide)

/-- The loop of InventoryController.createInventoryItem (lines 67-91)
that seeds `stockByBranchWarehouse`: walk the branch/warehouse pairs,
skip combinations already processed, and give every pair whose warehouse
exists and is non-shared its own entry carrying the full initial stock.
`seen` is the `processedCombinations` set. -/
def seedStockAux (wdb : List Warehouse) (S : Int) :
    List (Nat × Nat) → List (Nat × Nat) → List StockEntry
  | [], _ => []
  | p :: rest, seen =>
    if p ∈ seen then seedStockAux wdb S rest seen
    else
      match findWarehouseById wdb p.2 with
      | some wh =>
        if wh.isShared then seedStockAux wdb S rest (p :: seen)
        else ⟨p.1, p.2, S⟩ :: seedStockAux wdb S rest (p :: seen)
      | none => seedStockAux wdb S rest (p :: seen)

/-- Seeding with an initially empty processed set. -/
def seedStockByBranchWarehouse (wdb : List Warehouse) (S : Int)
    (pairs : List (Nat × Nat)) : List StockEntry :=
  seedStockAux wdb S pairs []

/-- Inference of the branch/warehouse mapping when the request does not
supply one (createInventoryItem lines 35-55): each assigned branch is
mapped to its active, non-deleted MAIN warehouse for the tenant, when one
exists. -/
def inferBranchWarehouses (wdb : List Warehouse) (tenant : Nat)
    (assigned : List Nat) : List (Nat × Nat) :=
  assigned.filterMap (fun b =>
    (wdb.find? (fun wh => decide (wh.tenant_id = tenant ∧ wh.wtype = .MAIN ∧
      b ∈ wh.assignedBranches ∧ wh.deleted = false ∧ wh.status = .ACTIVE))).map
      (fun wh => (b, wh.id)))

/-- The branch/warehouse mapping used by item creation: the explicit
request mapping when present, otherwise the inferred one. -/
def resolveBranchWarehouses (wdb : List Warehouse) (tenant : Nat)
    (explicitBW : Option (List (Nat × Nat))) (assigned : List Nat) : List (Nat × Nat) :=
  match explicitBW with
  | some l => l
  | none => inferBranchWarehouses wdb tenant assigned

/-- InventoryController.createInventoryItem (lines 22-110), restricted to
the stock-relevant fields: `current_stock` keeps the user-entered value
and `stockByBranchWarehouse` is seeded from the resolved mapping. -/
def createInventoryItem (wdb : List Warehouse) (tenant : Nat) (S : Int)
    (explicitBW : Option (List (Nat × Nat))) (assigned : List Nat) : InventoryItem :=
  ⟨S, seedStockByBranchWarehouse wdb S
    (resolveBranchWarehouses wdb tenant explicitBW assigned)⟩

/-- The `(branchId, warehouseId)` key of a stock entry. -/
def entryKey (e : StockEntry) : Nat × Nat := (e.branchId, e.warehouseId)

lemma seedStockAux_cons (wdb : List Warehouse) (S : Int) (p : Nat × Nat)
    (rest seen : List (Nat × Nat)) :
    seedStockAux wdb S (p :: rest) seen =
      if p ∈ seen then seedStockAux wdb S rest seen
      else
        match findWarehouseById wdb p.2 with
        | some wh =>
          if wh.isShared then seedStockAux wdb S rest (p :: seen)
          else ⟨p.1, p.2, S⟩ :: seedStockAux wdb S rest (p :: seen)
        | none => seedStockAux wdb S rest (p :: seen) := by
  rw [seedStockAux]

lemma seedStockAux_all {wdb : List Warehouse} {S : Int} :
    ∀ {pairs seen : List (Nat × Nat)}, ∀ e ∈ seedStockAux wdb S pairs seen,
      e.stock = S ∧ entryKey e ∈ pairs ∧
      ∃ wh, findWarehouseById wdb e.warehouseId = some wh ∧ wh.isShared = false := by
  intro pairs
  induction pairs with
  | nil => intro seen e he; simp [seedStockAux] at he
  | cons p rest ih =>
    intro seen e he
    rw [seedStockAux_cons] at he
    by_cases hps : p ∈ seen
    · rw [if_pos hps] at he
      obtain ⟨h1, h2, h3⟩ := ih e he
      exact ⟨h1, List.mem_cons_of_mem _ h2, h3⟩
    · rw [if_neg hps] at he
      rcases hfw : findWarehouseById wdb p.2 with _ | wh <;> simp only [hfw] at he
      · obtain ⟨h1, h2, h3⟩ := ih e he
        exact ⟨h1, List.mem_cons_of_mem _ h2, h3⟩
      · by_cases hsh : wh.isShared = true
        · rw [if_pos hsh] at he
          obtain ⟨h1, h2, h3⟩ := ih e he
          exact ⟨h1, List.mem_cons_of_mem _ h2, h3⟩
        · rw [if_neg hsh] at he
          rcases List.mem_cons.mp he with rfl | hm
          · exact ⟨rfl, by simp [entryKey], wh, hfw, Bool.not_eq_true wh.isShared ▸ hsh⟩
          · obtain ⟨h1, h2, h3⟩ := ih e hm
            exact ⟨h1, List.mem_cons_of_mem _ h2, h3⟩

lemma seedStockAux_mem {wdb : List Warehouse} {S : Int} {b w : Nat} {wh : Warehouse}
    (hfw : findWarehouseById wdb w = some wh) (hsh : wh.isShared = false) :
    ∀ {pairs seen : List (Nat × Nat)}, (b, w) ∈ pairs → (b, w) ∉ seen →
      (⟨b, w, S⟩ : StockEntry) ∈ seedStockAux wdb S pairs seen := by
  intro pairs
  induction pairs with
  | nil => intro seen h _; simp at h
  | cons p rest ih =>
    intro seen hmem hns
    rw [seedStockAux_cons]
    by_cases hpe : p = (b, w)
    · subst hpe
      rw [if_neg hns]
      simp only [hfw]
      rw [if_neg (by rw [hsh]; exact Bool.false_ne_true)]
      exact List.mem_cons_self _ _
    · have hm : (b, w) ∈ rest := by
        rcases List.mem_cons.mp hmem with heq | hm
        · exact absurd heq.symm hpe
        · exact hm
      by_cases hps : p ∈ seen
      · rw [if_pos hps]
        exact ih hm hns
      · rw [if_neg hps]
        have hns' : (b, w) ∉ p :: seen := by
          intro hc
          rcases List.mem_cons.mp hc with heq | hc'
          · exact hpe heq.symm
          · exact hns hc'
        rcases hfw2 : findWarehouseById wdb p.2 with _ | wh2 <;> simp only [hfw2]
        · exact ih hm hns'
        · by_cases hsh2 : wh2.isShared = true
          · rw [if_pos hsh2]
            exact ih hm hns'
          · rw [if_neg hsh2]
            exact List.mem_cons_of_mem _ (ih hm hns')

lemma seedStockAux_fresh {wdb : List Warehouse} {S : Int} :
    ∀ {pairs seen : List (Nat × Nat)}, ∀ e ∈ seedStockAux wdb S pairs seen,
      entryKey e ∉ seen := by
  intro pairs
  induction pairs with
  | nil => intro seen e he; simp [seedStockAux] at he
  | cons p rest ih =>
    intro seen e he
    rw [seedStockAux_cons] at he
    by_cases hps : p ∈ seen
    · rw [if_pos hps] at he
      exact ih e he
    · rw [if_neg hps] at he
      rcases hfw : findWarehouseById wdb p.2 with _ | wh <;> simp only [hfw] at he
      · exact fun hc => ih e he (List.mem_cons_of_mem _ hc)
      · by_cases hsh : wh.isShared = true
        · rw [if_pos hsh] at he
          exact fun hc => ih e he (List.mem_cons_of_mem _ hc)
        · rw [if_neg hsh] at he
          rcases List.mem_cons.mp he with rfl | hm
          · simpa [entryKey] using hps
          · exact fun hc => ih e hm (List.mem_cons_of_mem _ hc)

lemma seedStockAux_nodup {wdb : List Warehouse} {S : Int} :
    ∀ {pairs seen : List (Nat × Nat)},
      ((seedStockAux wdb S pairs seen).map entryKey).Nodup := by
  intro pairs
  induction pairs with
  | nil => intro seen; simp [seedStockAux]
  | cons p rest ih =>
    intro seen
    rw [seedStockAux_cons]
    by_cases hps : p ∈ seen
    · rw [if_pos hps]; exact ih
    · rw [if_neg hps]
      rcases hfw : findWarehouseById wdb p.2 with _ | wh <;> simp only [hfw]
      · exact ih
      · by_cases hsh : wh.isShared = true
        · rw [if_pos hsh]
          exact ih
        · rw [if_neg hsh]
          rw [List.map_cons, List.nodup_cons]
          refine ⟨?_, ih⟩
          intro hc
          rcases List.mem_map.mp hc with ⟨e, he, hkey⟩
          have hfr := seedStockAux_fresh e he
          rw [hkey] at hfr
          exact hfr (by simp [entryKey])

/-- C4: item creation gives every distinct branch/warehouse pair whose
warehouse is non-shared its own `stockByBranchWarehouse` entry carrying
the full initial stock S (duplicates skipped, so entry keys are
distinct); pairs whose warehouse is shared or unknown produce no entry;
and `current_stock` stays S. -/
theorem claim_C4_creation_full_copy_per_branch (wdb : List Warehouse) (tenant : Nat)
    (S : Int) (explicitBW : Option (List (Nat × Nat))) (assigned : List Nat) :
    (createInventoryItem wdb tenant S explicitBW assigned).current_stock = S ∧
    (∀ bw ∈ resolveBranchWarehouses wdb tenant explicitBW assigned, ∀ wh,
      findWarehouseById wdb bw.2 = some wh → wh.isShared = false →
      (⟨bw.1, bw.2, S⟩ : StockEntry) ∈
        (createInventoryItem wdb tenant S explicitBW assigned).stockByBranchWarehouse) ∧
    (∀ e ∈ (createInventoryItem wdb tenant S explicitBW assigned).stockByBranchWarehouse,
      e.stock = S ∧ entryKey e ∈ resolveBranchWarehouses wdb tenant explicitBW assigned ∧
      ∃ wh, findWarehouseById wdb e.warehouseId = some wh ∧ wh.isShared = false) ∧
    ((createInventoryItem wdb tenant S explicitBW assigned).stockByBranchWarehouse.map
      entryKey).Nodup := by
  refine ⟨rfl, ?_, ?_, ?_⟩
  · intro bw hbw wh hfw hsh
    have : (bw.1, bw.2) ∈ resolveBranchWarehouses wdb tenant explicitBW assigned := by
      simpa using hbw
    exact seedStockAux_mem hfw hsh this (by simp)
  · intro e he
    exact seedStockAux_all e he
  · exact seedStockAux_nodup

/-- Scenario-4 warehouse table: warehouse 1 is the non-shared MAIN
warehouse of tenant 0, assigned to branches 0 and 2. -/
def scenario4Wdb : List Warehouse :=
  [⟨1, 0, "Main Warehouse", .MAIN, .ACTIVE, [0, 2], none, false, false⟩]

theorem claim_C4_witness :
    (⟨0, 1, 100⟩ : StockEntry) ∈
      (createInventoryItem scenario4Wdb 0 100 none [0, 2]).stockByBranchWarehouse ∧
    (⟨2, 1, 100⟩ : StockEntry) ∈
      (createInventoryItem scenario4Wdb 0 100 none [0, 2]).stockByBranchWarehouse :=
  ⟨(claim_C4_creation_full_copy_per_branch scenario4Wdb 0 100 none [0, 2]).2.1
      (0, 1) (by decide)
      ⟨1, 0, "Main Warehouse", .MAIN, .ACTIVE, [0, 2], none, false, false⟩
      (by decide) (by decide),
    (claim_C4_creation_full_copy_per_branch scenario4Wdb 0 100 none [0, 2]).2.1
      (2, 1) (by decide)
      ⟨1, 0, "Main Warehouse", .MAIN, .ACTIVE, [0, 2], none, false, false⟩
      (by decide) (by decide)⟩

/-- Warehouse o is a non-deleted MAIN warehouse of tenant t with branch b
among its assigned branches (the findOne filter of the MAIN-constraint
checks). -/
def isMainFor (t b : Nat) (o : Warehouse) : Bool :=
  decide (o.tenant_id = t ∧ o.wtype = .MAIN ∧ b ∈ o.assignedBranches ∧ o.deleted = false)

/-- Same as `isMainFor` but excluding a given warehouse id (the
`_id: $ne` part of the update-path and pre-save-hook queries). -/
def isOtherMainFor (i t b : Nat) (o : Warehouse) : Bool :=
  decide (o.id ≠ i) && isMainFor t b o

/-- Number of non-deleted MAIN warehouses of tenant t assigned to branch b. -/
def countMainFor (db : List Warehouse) (t b : Nat) : Nat :=
  db.countP (isMainFor t b)

/-- The MAIN-per-branch invariant: every (tenant, branch) pair has at most
one non-deleted MAIN warehouse. -/
def mainPerBranchInvariant (db : List Warehouse) : Prop :=
  ∀ t b, countMainFor db t b ≤ 1

/-- Mongoose save of an already-loaded document: replace the stored
document carrying the same _id (insert if somehow absent). -/
def upsertWarehouse : List Warehouse → Warehouse → List Warehouse
  | [], wh => [wh]
  | x :: xs, wh => if x.id = wh.id then wh :: xs else x :: upsertWarehouse xs wh

/-- WarehouseSchema.pre('save') hook: a MAIN, non-deleted warehouse may
only be saved if none of its assigned branches already has another
non-deleted MAIN warehouse of the same tenant; returns the first
offending branch. -/
def preSaveCheck (db : List Warehouse) (wh : Warehouse) : Option Nat :=
  if wh.wtype = .MAIN ∧ wh.deleted = false then
    wh.assignedBranches.find? (fun b => db.any (isOtherMainFor wh.id wh.tenant_id b))
  else none

/-- Saving a brand-new Warehouse document (insert), guarded by the
pre-save hook. -/
def saveNewWarehouse (db : List Warehouse) (wh : Warehouse) :
    Except Nat (List Warehouse) :=
  match preSaveCheck db wh with
  | some b => .error b
  | none => .ok (db ++ [wh])

/-- Saving a loaded-and-modified Warehouse document (replace by _id),
guarded by the pre-save hook. -/
def saveExistingWarehouse (db : List Warehouse) (wh : Warehouse) :
    Except Nat (List Warehouse) :=
  match preSaveCheck db wh with
  | some b => .error b
  | none => .ok (upsertWarehouse db wh)

/-- `[...new Set(arr)]`: deduplication keeping first occurrences in order. -/
def dedupAux : List Nat → List Nat → List Nat
  | [], _ => []
  | x :: xs, seen => if x ∈ seen then dedupAux xs seen else x :: dedupAux xs (x :: seen)

/-- Deduplicate a branch-id list, keeping first occurrences. -/
def dedupFirst (l : List Nat) : List Nat := dedupAux l []

/-- Error responses of the warehouse create/update boundary. -/
inductive WhError
| noBranches
| branchesNotFound
| duplicateBranchIds
| duplicateMain (branch : Nat)
| notFound
| saveFailed (branch : Nat)
deriving DecidableEq, Repr

/-- Warehouse-database state plus HTTP response of one warehouse
operation; on any error the transaction is aborted, so `db` is the
original state. -/
structure WhOutcome where
  db : List Warehouse
  resp : Except WhError Warehouse
deriving Repr

/-- Commit step shared by create and update: run the (already guarded)
save; on hook failure abort the transaction (db unchanged). -/
def commitSave (db : List Warehouse) (saved : Except Nat (List Warehouse))
    (wh : Warehouse) (onErr : Nat → WhError) : WhOutcome :=
  match saved with
  | .ok db2 => ⟨db2, .ok wh⟩
  | .error b => ⟨db, .error (onErr b)⟩

/-- The validation sequence of WarehouseController.createWarehouse
(part_010 lines 1308-1383), in source order: non-empty branches, all
branches belong to the tenant, no duplicate branch ids, and (for MAIN)
no assigned branch already has a non-deleted MAIN warehouse. -/
def createWarehouseChecks (db : List Warehouse) (clinics : List Nat) (tenant : Nat)
    (ty : WType) (branches : List Nat) : Option WhError :=
  if branches.isEmpty then some .noBranches
  else if ¬ (dedupFirst branches).all (fun b => clinics.contains b) then
    some .branchesNotFound
  else if branches.length ≠ (dedupFirst branches).length then some .duplicateBranchIds
  else if ty = .MAIN then
    match (dedupFirst branches).find? (fun b => db.any (isMainFor tenant b)) with
    | some b => some (.duplicateMain b)
    | none => none
  else none

/-- The Warehouse document built by createWarehouse: validated unique
branch ids, status defaulting to ACTIVE and deleted_at null. -/
def newWarehouseDoc (newId tenant : Nat) (name : String) (ty : WType)
    (branches : List Nat) (status : Option WStatus) (managerUserId : Option Nat)
    (isShared : Bool) : Warehouse :=
  ⟨newId, tenant, name, ty, status.getD .ACTIVE, dedupFirst branches,
    managerUserId, isShared, false⟩

/-- WarehouseController.createWarehouse: validate, then insert the new
warehouse (whose save re-runs the schema hook) inside one transaction.
The hook's duplicate-MAIN error is surfaced as such by the controller's
catch clause. -/
def createWarehouse (db : List Warehouse) (clinics : List Nat) (tenant newId : Nat)
    (name : String) (ty : WType) (branches : List Nat) (status : Option WStatus)
    (managerUserId : Option Nat) (isShared : Bool) : WhOutcome :=
  match createWarehouseChecks db clinics tenant ty branches with
  | some e => ⟨db, .error e⟩
  | none =>
    commitSave db
      (saveNewWarehouse db
        (newWarehouseDoc newId tenant name ty branches status managerUserId isShared))
      (newWarehouseDoc newId tenant name ty branches status managerUserId isShared)
      .duplicateMain

/-- A partial-update request body for PUT /api/warehouses/:id. Fields set
to `none` are absent from the request. -/
structure WhUpdateReq where
  name : Option String
  wtype : Option WType
  assignedBranches : Option (List Nat)
  managerUserId : Option (Option Nat)
  status : Option WStatus
  isShared : Option Bool
deriving DecidableEq, Repr

/-- The branch-validation block of WarehouseController.updateWarehouse
(lines 1493-1552): run only when the request carries a non-empty
assignedBranches array; re-checks the MAIN constraint when the resulting
type is MAIN; yields the validated unique branch list when it ran. -/
def validateUpdateBranches (db : List Warehouse) (clinics : List Nat)
    (tenant wid : Nat) (wh : Warehouse) (req : WhUpdateReq) :
    Except WhError (Option (List Nat)) :=
  match req.assignedBranches with
  | none => .ok none
  | some l =>
    if l.isEmpty then .ok none
    else
      if ¬ (dedupFirst l).all (fun b => clinics.contains b) then .error .branchesNotFound
      else if l.length ≠ (dedupFirst l).length then .error .duplicateBranchIds
      else if req.wtype = some .MAIN ∨ (req.wtype = none ∧ wh.wtype = .MAIN) then
        match (dedupFirst l).find? (fun b => db.any (isOtherMainFor wid tenant b)) with
        | some b => .error (.duplicateMain b)
        | none => .ok (some (dedupFirst l))
      else .ok (some (dedupFirst l))

/-- Apply the provided fields of an update request to a warehouse
(lines 1554-1565); assignedBranches is replaced only when the request
provided a non-empty list that passed validation. -/
def applyUpdate (wh : Warehouse) (req : WhUpdateReq)
    (validated : Option (List Nat)) : Warehouse :=
  ⟨wh.id, wh.tenant_id,
    req.name.getD wh.name,
    req.wtype.getD wh.wtype,
    req.status.getD wh.status,
    (match validated with | some u => u | none => wh.assignedBranches),
    (match req.managerUserId with | some m => m | none => wh.managerUserId),
    req.isShared.getD wh.isShared,
    wh.deleted⟩

/-- The body of WarehouseController.updateWarehouse once the warehouse
was found: validate the requested branch changes, apply the partial
update, and save (which re-runs the schema pre-save hook). -/
def updateWarehouseFound (db : List Warehouse) (clinics : List Nat)
    (tenant wid : Nat) (wh : Warehouse) (req : WhUpdateReq) : WhOutcome :=
  match validateUpdateBranches db clinics tenant wid wh req with
  | .error e => ⟨db, .error e⟩
  | .ok validated =>
    commitSave db (saveExistingWarehouse db (applyUpdate wh req validated))
      (applyUpdate wh req validated) .saveFailed

/-- The findOne filter of updateWarehouse: this tenant's warehouse with
the requested id, not soft-deleted. -/
def warehouseByIdTenantLive (tenant wid : Nat) (o : Warehouse) : Bool :=
  decide (o.id = wid ∧ o.tenant_id = tenant ∧ o.deleted = false)

/-- WarehouseController.updateWarehouse: find the tenant's non-deleted
warehouse and run the update; every failure aborts the transaction. -/
def updateWarehouse (db : List Warehouse) (clinics : List Nat) (tenant wid : Nat)
    (req : WhUpdateReq) : WhOutcome :=
  match db.find? (warehouseByIdTenantLive tenant wid) with
  | none => ⟨db, .error .notFound⟩
  | some wh => updateWarehouseFound db clinics tenant wid wh req

/-- The findOne filter of createDefaultWarehousesForBranch: an existing
non-deleted MAIN warehouse of the tenant assigned to the branch. -/
def existingMainPred (tenant branch : Nat) (o : Warehouse) : Bool :=
  decide (o.tenant_id = tenant ∧ branch ∈ o.assignedBranches ∧
    o.wtype = .MAIN ∧ o.deleted = false)

/-- The default MAIN warehouse document provisioned for a new branch:
named "{BranchName} - Main Warehouse", ACTIVE, assigned to exactly that
branch (schema defaults: no manager, not shared, not deleted). -/
def defaultMainWarehouse (newId tenant branch : Nat) (branchName : String) : Warehouse :=
  ⟨newId, tenant, branchName ++ " - Main Warehouse", .MAIN, .ACTIVE, [branch],
    none, false, false⟩

/-- createDefaultWarehousesForBranch (part_010 lines 1098-1136): check
for an existing non-deleted MAIN warehouse of the branch, and only when
none exists create the default MAIN warehouse. A failed transaction
leaves the database unchanged. -/
def createDefaultWarehousesForBranch (db : List Warehouse) (newId tenant branch : Nat)
    (branchName : String) : List Warehouse :=
  match db.find? (existingMainPred tenant branch) with
  | some _ => db
  | none =>
    match saveNewWarehouse db (defaultMainWarehouse newId tenant branch branchName) with
    | .ok db2 => db2
    | .error _ => db

lemma isMainFor_iff {t b : Nat} {o : Warehouse} :
    isMainFor t b o = true ↔
      (o.tenant_id = t ∧ o.wtype = .MAIN ∧ b ∈ o.assignedBranches ∧
        o.deleted = false) := by
  simp [isMainFor]

lemma isMainFor_of_isOtherMainFor {i t b : Nat} {o : Warehouse}
    (h : isOtherMainFor i t b o = true) : isMainFor t b o = true := by
  unfold isOtherMainFor at h
  exact (Bool.and_eq_true_iff.mp h).2

lemma isOtherMainFor_of_ne {i t b : Nat} {o : Warehouse} (hne : o.id ≠ i) :
    isOtherMainFor i t b o = isMainFor t b o := by
  simp [isOtherMainFor, hne]

lemma countP_upsert_le (wh : Warehouse) (t b : Nat) :
    ∀ {db : List Warehouse}, (db.map Warehouse.id).Nodup →
      (upsertWarehouse db wh).countP (isMainFor t b) ≤
        db.countP (isOtherMainFor wh.id t b) +
          (if isMainFor t b wh = true then 1 else 0) := by
  intro db
  induction db with
  | nil =>
    intro _
    simp [upsertWarehouse, List.countP_cons]
  | cons x xs ih =>
    intro hnd
    rw [List.map_cons, List.nodup_cons] at hnd
    obtain ⟨hx, hnds⟩ := hnd
    by_cases hid : x.id = wh.id
    · rw [upsertWarehouse, if_pos hid, List.countP_cons, List.countP_cons]
      have hcong : xs.countP (isMainFor t b) = xs.countP (isOtherMainFor wh.id t b) := by
        refine List.countP_congr ?_
        intro o ho
        have hne : o.id ≠ wh.id := by
          intro he
          exact hx (List.mem_map.mpr ⟨o, ho, by rw [he, ← hid]⟩)
        rw [isOtherMainFor_of_ne hne]
      have hqx : isOtherMainFor wh.id t b x = false := by
        simp [isOtherMainFor, hid]
      rw [hcong, hqx]
      simp
    · rw [upsertWarehouse, if_neg hid, List.countP_cons, List.countP_cons,
        isOtherMainFor_of_ne hid]
      have h2 := ih hnds
      omega

lemma preSaveCheck_none_sound {db : List Warehouse} {wh : Warehouse}
    (hpre : preSaveCheck db wh = none) {t b : Nat}
    (hmain : isMainFor t b wh = true) :
    db.countP (isOtherMainFor wh.id t b) = 0 := by
  obtain ⟨ht, hty, hbin, hdel⟩ := isMainFor_iff.mp hmain
  unfold preSaveCheck at hpre
  rw [if_pos ⟨hty, hdel⟩] at hpre
  have hall := List.find?_eq_none.mp hpre b hbin
  refine List.countP_eq_zero.mpr ?_
  intro o ho hcon
  apply hall
  refine List.any_eq_true.mpr ⟨o, ho, ?_⟩
  rw [ht]
  exact hcon

lemma saveNewWarehouse_ok_invariant {db db' : List Warehouse} {wh : Warehouse}
    (hfresh : wh.id ∉ db.map Warehouse.id) (hinv : mainPerBranchInvariant db)
    (hok : saveNewWarehouse db wh = .ok db') : mainPerBranchInvariant db' := by
  unfold saveNewWarehouse at hok
  rcases hpre : preSaveCheck db wh with _ | bb <;> rw [hpre] at hok
  · injection hok with h
    subst h
    intro t b
    by_cases hmain : isMainFor t b wh = true
    · have hz := preSaveCheck_none_sound hpre hmain
      have hdbz : db.countP (isMainFor t b) = 0 := by
        have hc : db.countP (isMainFor t b) = db.countP (isOtherMainFor wh.id t b) := by
          refine List.countP_congr ?_
          intro o ho
          have hne : o.id ≠ wh.id := fun he => hfresh (List.mem_map.mpr ⟨o, ho, he⟩)
          rw [isOtherMainFor_of_ne hne]
        rw [hc, hz]
      simp [countMainFor, List.countP_append, hdbz, List.countP_cons, hmain]
    · have h1 := hinv t b
      unfold countMainFor at h1 ⊢
      rw [List.countP_append, List.countP_cons]
      simp only [hmain, if_false]
      simpa using h1
  · cases hok

lemma saveExistingWarehouse_ok_invariant {db db' : List Warehouse} {wh : Warehouse}
    (hnodup : (db.map Warehouse.id).Nodup) (hinv : mainPerBranchInvariant db)
    (hok : saveExistingWarehouse db wh = .ok db') : mainPerBranchInvariant db' := by
  unfold saveExistingWarehouse at hok
  rcases hpre : preSaveCheck db wh with _ | bb <;> rw [hpre] at hok
  · injection hok with h
    subst h
    intro t b
    have hle := countP_upsert_le wh t b hnodup
    by_cases hmain : isMainFor t b wh = true
    · have hz := preSaveCheck_none_sound hpre hmain
      rw [hz, if_pos hmain] at hle
      simpa [countMainFor] using hle
    · rw [if_neg hmain] at hle
      have hmono : db.countP (isOtherMainFor wh.id t b) ≤ db.countP (isMainFor t b) :=
        List.countP_mono_left (fun o _ h => isMainFor_of_isOtherMainFor h)
      have h1 := hinv t b
      unfold countMainFor at h1 ⊢
      omega
  · cases hok

lemma commitSave_resp_ok {db : List Warehouse} {saved : Except Nat (List Warehouse)}
    {wh : Warehouse} {onErr : Nat → WhError} {wh' : Warehouse}
    (h : (commitSave db saved wh onErr).resp = .ok wh') :
    ∃ db2, saved = .ok db2 ∧ (commitSave db saved wh onErr).db = db2 := by
  rcases saved with bb | db2
  · simp [commitSave] at h
  · exact ⟨db2, rfl, rfl⟩

/-- C2: a successful warehouse create (with a fresh document id) and a
successful warehouse update both preserve the MAIN-per-branch invariant:
at most one non-deleted MAIN warehouse per (tenant, branch). The pre-save
schema hook re-applies the MAIN-constraint check on every save whose
resulting type is MAIN (in particular a type-only update to MAIN), so no
successful path can introduce a second MAIN warehouse for a branch. -/
theorem claim_C2_main_invariant_preserved (db : List Warehouse) (clinics : List Nat)
    (tenant newId : Nat) (name : String) (ty : WType) (branches : List Nat)
    (status : Option WStatus) (mgr : Option Nat) (ish : Bool)
    (wid : Nat) (req : WhUpdateReq)
    (hnodup : (db.map Warehouse.id).Nodup) (hinv : mainPerBranchInvariant db) :
    (newId ∉ db.map Warehouse.id → ∀ wh',
      (createWarehouse db clinics tenant newId name ty branches status mgr ish).resp
          = .ok wh' →
      mainPerBranchInvariant
        (createWarehouse db clinics tenant newId name ty branches status mgr ish).db) ∧
    (∀ wh', (updateWarehouse db clinics tenant wid req).resp = .ok wh' →
      mainPerBranchInvariant (updateWarehouse db clinics tenant wid req).db) := by
  constructor
  · intro hfresh wh' hok
    unfold createWarehouse at hok ⊢
    revert hok
    rcases hch : createWarehouseChecks db clinics tenant ty branches with _ | e <;>
      intro hok
    · obtain ⟨db2, hs, hd⟩ := commitSave_resp_ok hok
      exact hd.symm ▸ saveNewWarehouse_ok_invariant hfresh hinv hs
    · exact Except.noConfusion hok
  · intro wh' hok
    unfold updateWarehouse at hok ⊢
    revert hok
    rcases hf : db.find? (warehouseByIdTenantLive tenant wid) with _ | wh <;> intro hok
    · exact Except.noConfusion hok
    · show mainPerBranchInvariant (updateWarehouseFound db clinics tenant wid wh req).db
      replace hok : (updateWarehouseFound db clinics tenant wid wh req).resp
          = Except.ok wh' := hok
      unfold updateWarehouseFound at hok ⊢
      revert hok
      rcases hv : validateUpdateBranches db clinics tenant wid wh req with e | validated <;>
        intro hok
      · exact Except.noConfusion hok
      · obtain ⟨db2, hs, hd⟩ := commitSave_resp_ok hok
        exact hd.symm ▸ saveExistingWarehouse_ok_invariant hnodup hinv hs

theorem claim_C2_witness :
    (createWarehouse [] [7] 0 1 "Main" .MAIN [7] none none false).resp
        = .ok ⟨1, 0, "Main", .MAIN, .ACTIVE, [7], none, false, false⟩ ∧
    mainPerBranchInvariant (createWarehouse [] [7] 0 1 "Main" .MAIN [7] none none false).db :=
  ⟨rfl,
    (claim_C2_main_invariant_preserved [] [7] 0 1 "Main" .MAIN [7] none none false
        0 ⟨none, none, none, none, none, none⟩ (by simp)
        (fun t b => by simp [countMainFor])).1
      (by simp) ⟨1, 0, "Main", .MAIN, .ACTIVE, [7], none, false, false⟩ rfl⟩

/-- C7: a MAIN warehouse-creation request whose validated, deduplicated
branches include one that already has a non-deleted MAIN warehouse for
the tenant is rejected with an error naming the first offending branch,
and the warehouse table is left unchanged (transaction aborted, no
partial write). -/
theorem claim_C7_duplicate_main_create_rejected (db : List Warehouse)
    (clinics : List Nat) (tenant newId : Nat) (name : String) (branches : List Nat)
    (status : Option WStatus) (mgr : Option Nat) (ish : Bool) (b0 : Nat)
    (h1 : branches.isEmpty = false)
    (h2 : (dedupFirst branches).all (fun b => clinics.contains b) = true)
    (h3 : branches.length = (dedupFirst branches).length)
    (h4 : (dedupFirst branches).find? (fun b => db.any (isMainFor tenant b)) = some b0) :
    createWarehouse db clinics tenant newId name .MAIN branches status mgr ish
      = ⟨db, .error (.duplicateMain b0)⟩ := by
  have hch : createWarehouseChecks db clinics tenant .MAIN branches
      = some (.duplicateMain b0) := by
    unfold createWarehouseChecks
    rw [if_neg (by rw [h1]; exact Bool.false_ne_true)]
    rw [if_neg (fun hc => hc h2)]
    rw [if_neg (fun hc => hc h3)]
    rw [if_pos rfl, h4]
  unfold createWarehouse
  rw [hch]

/-- Scenario 3 database: Downtown (branch 10) already has its MAIN
warehouse. -/
def scenario3Db : List Warehouse :=
  [⟨1, 0, "Downtown - Main Warehouse", .MAIN, .ACTIVE, [10], none, false, false⟩]

theorem claim_C7_witness :
    createWarehouse scenario3Db [10] 0 2 "Second Main" .MAIN [10] none none false
      = ⟨scenario3Db, .error (.duplicateMain 10)⟩ :=
  claim_C7_duplicate_main_create_rejected scenario3Db [10] 0 2 "Second Main" [10]
    none none false 10 (by decide) (by decide) (by decide) (by decide)

lemma existingMainPred_iff {tenant branch : Nat} {o : Warehouse} :
    existingMainPred tenant branch o = true ↔
      (o.tenant_id = tenant ∧ branch ∈ o.assignedBranches ∧ o.wtype = .MAIN ∧
        o.deleted = false) := by
  simp [existingMainPred]

lemma createDefault_of_found {db : List Warehouse} {tenant branch : Nat}
    {w0 : Warehouse} (h : db.find? (existingMainPred tenant branch) = some w0)
    (newId : Nat) (n : String) :
    createDefaultWarehousesForBranch db newId tenant branch n = db := by
  unfold createDefaultWarehousesForBranch
  rw [h]

lemma createDefault_of_none {db : List Warehouse} {tenant branch : Nat}
    (h : db.find? (existingMainPred tenant branch) = none) (newId : Nat) (n : String) :
    createDefaultWarehousesForBranch db newId tenant branch n
      = db ++ [defaultMainWarehouse newId tenant branch n] := by
  have hany : db.any (isOtherMainFor newId tenant branch) = false := by
    rw [Bool.eq_false_iff]
    intro hc
    rcases List.any_eq_true.mp hc with ⟨o, ho, hcon⟩
    have hm := isMainFor_iff.mp (isMainFor_of_isOtherMainFor hcon)
    exact (List.find?_eq_none.mp h o ho)
      (existingMainPred_iff.mpr ⟨hm.1, hm.2.2.1, hm.2.1, hm.2.2.2⟩)
  have hpre : preSaveCheck db (defaultMainWarehouse newId tenant branch n) = none := by
    unfold preSaveCheck
    rw [if_pos ⟨rfl, rfl⟩]
    show ([branch].find? (fun b => db.any (isOtherMainFor newId tenant b))) = none
    rw [List.find?_cons_of_neg _ (by simp [hany])]
    rfl
  unfold createDefaultWarehousesForBranch
  rw [h, show saveNewWarehouse db (defaultMainWarehouse newId tenant branch n)
    = .ok (db ++ [defaultMainWarehouse newId tenant branch n]) from by
      unfold saveNewWarehouse; rw [hpre]]

/-- C8: branch provisioning is idempotent. Running it a second time (at
any document id and name) is a no-op; when no non-deleted MAIN warehouse
exists for the branch it appends exactly the default MAIN warehouse
("{BranchName} - Main Warehouse", ACTIVE, assigned to just that branch);
when one exists it changes nothing, so repeated runs create at most one
MAIN warehouse for the branch. -/
theorem claim_C8_provisioning_idempotent (db : List Warehouse)
    (tenant branch id1 id2 : Nat) (n1 n2 : String) :
    (createDefaultWarehousesForBranch
        (createDefaultWarehousesForBranch db id1 tenant branch n1) id2 tenant branch n2
      = createDefaultWarehousesForBranch db id1 tenant branch n1) ∧
    (db.find? (existingMainPred tenant branch) = none →
      createDefaultWarehousesForBranch db id1 tenant branch n1
        = db ++ [defaultMainWarehouse id1 tenant branch n1]) ∧
    (∀ w0, db.find? (existingMainPred tenant branch) = some w0 →
      createDefaultWarehousesForBranch db id1 tenant branch n1 = db) := by
  refine ⟨?_, fun h => createDefault_of_none h id1 n1,
    fun w0 h => createDefault_of_found h id1 n1⟩
  rcases hf : db.find? (existingMainPred tenant branch) with _ | w0
  · rw [createDefault_of_none hf id1 n1]
    have hfind2 : (db ++ [defaultMainWarehouse id1 tenant branch n1]).find?
        (existingMainPred tenant branch)
        = some (defaultMainWarehouse id1 tenant branch n1) := by
      have hpred : existingMainPred tenant branch
          (defaultMainWarehouse id1 tenant branch n1) = true := by
        simp [existingMainPred, defaultMainWarehouse]
      rw [List.find?_append, hf, List.find?_cons_of_pos _ hpred]
      rfl
    exact createDefault_of_found hfind2 id2 n2
  · rw [createDefault_of_found hf id1 n1]
    exact createDefault_of_found hf id2 n2

theorem claim_C8_witness :
    createDefaultWarehousesForBranch [] 1 0 5 "Downtown"
      = [] ++ [defaultMainWarehouse 1 0 5 "Downtown"] :=
  (claim_C8_provisioning_idempotent [] 0 5 1 2 "Downtown" "Uptown").2.1 rfl

/-- A Clinic document: the hierarchy-relevant fields. -/
structure Clinic where
  id : Nat
  tenant_id : Nat
  is_main_clinic : Bool
  parent_clinic_id : Option Nat
  is_active : Bool
deriving DecidableEq, Repr

/-- A UserClinic membership document. -/
structure UserClinic where
  user_id : Nat
  clinic_id : Nat
  is_active : Bool
deriving DecidableEq, Repr

/-- Error responses of the clinic-creation boundary. -/
inductive ClinicError
| hierarchyMainParent
| hierarchySubNoParent
| mainNotUnique
| parentInvalid
| subCannotCreate
deriving DecidableEq, Repr

/-- validateMainClinicUniqueness's findOne filter: an active Main Clinic
of the tenant exists. -/
def activeMainExists (clinics : List Clinic) (tenant : Nat) : Bool :=
  clinics.any (fun c => decide (c.tenant_id = tenant ∧ c.is_main_clinic = true ∧
    c.is_active = true))

/-- validateParentClinic's findOne filter: clinic p is an active Main
Clinic of the tenant. -/
def parentIsActiveMain (clinics : List Clinic) (tenant p : Nat) : Bool :=
  clinics.any (fun c => decide (c.id = p ∧ c.tenant_id = tenant ∧
    c.is_main_clinic = true ∧ c.is_active = true))

/-- validateClinicBusinessRules (clinicValidation.ts lines 142-171) as
called by clinic creation (no excluded clinic id): hierarchy shape first,
then Main uniqueness, then parent must be an active Main Clinic. -/
def validateClinicBusinessRules (clinics : List Clinic) (tenant : Nat)
    (isMain : Bool) (parent : Option Nat) : Option ClinicError :=
  if isMain = true ∧ parent ≠ none then some .hierarchyMainParent
  else if isMain = false ∧ parent = none then some .hierarchySubNoParent
  else if isMain = true ∧ activeMainExists clinics tenant = true then some .mainNotUnique
  else
    match parent with
    | some p =>
      if isMain = false ∧ parentIsActiveMain clinics tenant p = false then
        some .parentInvalid
      else none
    | none => none

/-- The createClinic findOne for the tenant's Main Clinic (no is_active
filter, part_010 lines 215-218). -/
def findMainClinic (clinics : List Clinic) (tenant : Nat) : Option Clinic :=
  clinics.find? (fun c => decide (c.tenant_id = tenant ∧ c.is_main_clinic = true))

/-- countDocuments of the tenant's clinics (lines 221-223). -/
def tenantClinicCount (clinics : List Clinic) (tenant : Nat) : Nat :=
  clinics.countP (fun c => decide (c.tenant_id = tenant))

/-- UserClinic.findOne: the user's active membership in a given clinic. -/
def userInClinic (ucs : List UserClinic) (userId clinicId : Nat) : Option UserClinic :=
  ucs.find? (fun uc => decide (uc.user_id = userId ∧ uc.clinic_id = clinicId ∧
    uc.is_active = true))

/-- Lines 251-258: among the user's active memberships, does any resolve
(by populating clinic_id) to a non-main clinic? -/
def belongsToSubClinic (clinics : List Clinic) (ucs : List UserClinic)
    (userId : Nat) : Bool :=
  (ucs.filter (fun uc => decide (uc.user_id = userId ∧ uc.is_active = true))).any
    (fun uc =>
      match clinics.find? (fun c => decide (c.id = uc.clinic_id)) with
      | some c => !c.is_main_clinic
      | none => false)

/-- The decision branch taken when the tenant has a Main Clinic (lines
242-275): a user belonging to it, or to no clinic, creates a Sub under
it; a user belonging only to Sub Clinics is rejected. -/
def clinicDecisionWithMain (clinics : List Clinic) (ucs : List UserClinic)
    (userId : Nat) (m : Clinic) : Except ClinicError (Bool × Option Nat) :=
  match userInClinic ucs userId m.id with
  | some _ => .ok (false, some m.id)
  | none =>
    if belongsToSubClinic clinics ucs userId = true then .error .subCannotCreate
    else .ok (false, some m.id)

/-- The Main/Sub decision procedure of ClinicController.createClinic
(lines 214-276): first clinic of the tenant becomes Main; a tenant with
clinics but no Main Clinic promotes the new clinic to Main; otherwise
the Main-Clinic branch decides. -/
def clinicDecision (clinics : List Clinic) (ucs : List UserClinic)
    (tenant userId : Nat) : Except ClinicError (Bool × Option Nat) :=
  if tenantClinicCount clinics tenant = 0 then .ok (true, none)
  else
    match findMainClinic clinics tenant with
    | none => .ok (true, none)
    | some m => clinicDecisionWithMain clinics ucs userId m

/-- Clinic-database state plus response of one clinic-creation request. -/
structure ClinicOutcome where
  clinics : List Clinic
  resp : Except ClinicError Clinic
deriving Repr

/-- The clinic document persisted by createClinic (new clinics active). -/
def newClinicDoc (newId tenant : Nat) (isMain : Bool) (parent : Option Nat) : Clinic :=
  ⟨newId, tenant, isMain, parent, true⟩

/-- The tail of createClinic once the decision is made: validate business
rules and only then persist the clinic. -/
def createClinicDecided (clinics : List Clinic) (tenant newId : Nat)
    (isMain : Bool) (parent : Option Nat) : ClinicOutcome :=
  match validateClinicBusinessRules clinics tenant isMain parent with
  | some e => ⟨clinics, .error e⟩
  | none =>
    ⟨clinics ++ [newClinicDoc newId tenant isMain parent],
      .ok (newClinicDoc newId tenant isMain parent)⟩

/-- ClinicController.createClinic: the caller-supplied is_main_clinic and
parent_clinic_id (arguments reqIsMain, reqParent) are stripped from the
body and never used; the server computes the hierarchy decision,
validates business rules, and only then persists the clinic. -/
def createClinic (clinics : List Clinic) (ucs : List UserClinic)
    (tenant userId newId : Nat) (reqIsMain : Option Bool)
    (reqParent : Option (Option Nat)) : ClinicOutcome :=
  match clinicDecision clinics ucs tenant userId with
  | .error e => ⟨clinics, .error e⟩
  | .ok (isMain, parent) => createClinicDecided clinics tenant newId isMain parent

lemma validate_main_none_ok {clinics : List Clinic} {tenant : Nat}
    (hX : activeMainExists clinics tenant = false) :
    validateClinicBusinessRules clinics tenant true none = none := by
  unfold validateClinicBusinessRules
  rw [if_neg (by simp)]
  rw [if_neg (by simp)]
  rw [if_neg (by simp [hX])]

lemma validate_sub_ok {clinics : List Clinic} {tenant p : Nat}
    (hp : parentIsActiveMain clinics tenant p = true) :
    validateClinicBusinessRules clinics tenant false (some p) = none := by
  unfold validateClinicBusinessRules
  rw [if_neg (by simp)]
  rw [if_neg (by simp)]
  rw [if_neg (by simp)]
  show (if false = false ∧ parentIsActiveMain clinics tenant p = false then
      some ClinicError.parentInvalid else none) = (none : Option ClinicError)
  rw [if_neg (by simp [hp])]

lemma tenantClinicCount_ne_zero {clinics : List Clinic} {tenant : Nat} {m : Clinic}
    (hm : findMainClinic clinics tenant = some m) :
    ¬ tenantClinicCount clinics tenant = 0 := by
  intro h0
  unfold findMainClinic at hm
  unfold tenantClinicCount at h0
  have hmem := List.mem_of_find?_eq_some hm
  have hp := List.find?_some hm
  have hprops := of_decide_eq_true hp
  exact (List.countP_eq_zero.mp h0 m hmem) (decide_eq_true hprops.1)

lemma parentIsActiveMain_of_findMain {clinics : List Clinic} {tenant : Nat}
    {m : Clinic} (hm : findMainClinic clinics tenant = some m)
    (hact : m.is_active = true) :
    parentIsActiveMain clinics tenant m.id = true := by
  unfold findMainClinic at hm
  unfold parentIsActiveMain
  have hmem := List.mem_of_find?_eq_some hm
  have hp := List.find?_some hm
  have hprops := of_decide_eq_true hp
  exact List.any_eq_true.mpr ⟨m, hmem, decide_eq_true ⟨rfl, hprops.1, hprops.2, hact⟩⟩

/-- C9: the clinic-creation decision procedure. The caller-supplied
is_main_clinic / parent_clinic_id are ignored; the first clinic of a
tenant becomes Main; a user belonging to the (active) Main Clinic
creates a Sub under it; a user belonging only to a Sub Clinic is
rejected with no clinic created; a user belonging to no clinic creates a
Sub under the existing Main. -/
theorem claim_C9_clinic_creation_decision (clinics : List Clinic)
    (ucs : List UserClinic) (tenant userId newId : Nat) (r1 r1' : Option Bool)
    (r2 r2' : Option (Option Nat)) (m : Clinic) :
    (createClinic clinics ucs tenant userId newId r1 r2
      = createClinic clinics ucs tenant userId newId r1' r2') ∧
    (tenantClinicCount clinics tenant = 0 →
      createClinic clinics ucs tenant userId newId r1 r2
        = ⟨clinics ++ [newClinicDoc newId tenant true none],
            .ok (newClinicDoc newId tenant true none)⟩) ∧
    (findMainClinic clinics tenant = some m → m.is_active = true →
      (userInClinic ucs userId m.id).isSome = true →
      createClinic clinics ucs tenant userId newId r1 r2
        = ⟨clinics ++ [newClinicDoc newId tenant false (some m.id)],
            .ok (newClinicDoc newId tenant false (some m.id))⟩) ∧
    (findMainClinic clinics tenant = some m →
      userInClinic ucs userId m.id = none →
      belongsToSubClinic clinics ucs userId = true →
      createClinic clinics ucs tenant userId newId r1 r2
        = ⟨clinics, .error .subCannotCreate⟩) ∧
    (findMainClinic clinics tenant = some m → m.is_active = true →
      (∀ uc ∈ ucs, uc.user_id = userId → uc.is_active = false) →
      createClinic clinics ucs tenant userId newId r1 r2
        = ⟨clinics ++ [newClinicDoc newId tenant false (some m.id)],
            .ok (newClinicDoc newId tenant false (some m.id))⟩) := by
  refine ⟨rfl, ?_, ?_, ?_, ?_⟩
  · intro h0
    have hX : activeMainExists clinics tenant = false := by
      rw [Bool.eq_false_iff]
      intro hc
      rcases List.any_eq_true.mp hc with ⟨c, hcm, hcp⟩
      exact (List.countP_eq_zero.mp h0 c hcm)
        (decide_eq_true (of_decide_eq_true hcp).1)
    have hdec : clinicDecision clinics ucs tenant userId = .ok (true, none) := by
      unfold clinicDecision
      rw [if_pos h0]
    unfold createClinic
    rw [hdec]
    show createClinicDecided clinics tenant newId true none = _
    unfold createClinicDecided
    rw [validate_main_none_ok hX]
  · intro hm hact hin
    have hdec : clinicDecision clinics ucs tenant userId
        = .ok (false, some m.id) := by
      unfold clinicDecision
      rw [if_neg (tenantClinicCount_ne_zero hm), hm]
      show clinicDecisionWithMain clinics ucs userId m = _
      unfold clinicDecisionWithMain
      obtain ⟨uc, hu⟩ := Option.isSome_iff_exists.mp hin
      rw [hu]
    unfold createClinic
    rw [hdec]
    show createClinicDecided clinics tenant newId false (some m.id) = _
    unfold createClinicDecided
    rw [validate_sub_ok (parentIsActiveMain_of_findMain hm hact)]
  · intro hm huin hsub
    have hdec : clinicDecision clinics ucs tenant userId
        = .error .subCannotCreate := by
      unfold clinicDecision
      rw [if_neg (tenantClinicCount_ne_zero hm), hm]
      show clinicDecisionWithMain clinics ucs userId m = _
      unfold clinicDecisionWithMain
      rw [huin, if_pos hsub]
    unfold createClinic
    rw [hdec]
  · intro hm hact hno
    have huin : userInClinic ucs userId m.id = none := by
      refine List.find?_eq_none.mpr ?_
      intro uc hucm hp
      have hprops := of_decide_eq_true hp
      have := hno uc hucm hprops.1
      exact absurd hprops.2.2 (by rw [this]; exact Bool.false_ne_true)
    have hsub : belongsToSubClinic clinics ucs userId = false := by
      rw [Bool.eq_false_iff]
      intro hc
      unfold belongsToSubClinic at hc
      rcases List.any_eq_true.mp hc with ⟨uc, hucm, _⟩
      obtain ⟨hucs, hpred⟩ := List.mem_filter.mp hucm
      have hprops := of_decide_eq_true hpred
      have := hno uc hucs hprops.1
      exact absurd hprops.2 (by rw [this]; exact Bool.false_ne_true)
    have hdec : clinicDecision clinics ucs tenant userId
        = .ok (false, some m.id) := by
      unfold clinicDecision
      rw [if_neg (tenantClinicCount_ne_zero hm), hm]
      show clinicDecisionWithMain clinics ucs userId m = _
      unfold clinicDecisionWithMain
      rw [huin, if_neg (by simp [hsub])]
    unfold createClinic
    rw [hdec]
    show createClinicDecided clinics tenant newId false (some m.id) = _
    unfold createClinicDecided
    rw [validate_sub_ok (parentIsActiveMain_of_findMain hm hact)]

/-- Scenario 2: Downtown (clinic 1) is tenant 0's Main Clinic and user 4
belongs to it. -/
def scenario2Clinics : List Clinic := [⟨1, 0, true, none, true⟩]

/-- Scenario 2 memberships: user 4 active in clinic 1. -/
def scenario2Ucs : List UserClinic := [⟨4, 1, true⟩]

theorem claim_C9_witness :
    createClinic scenario2Clinics scenario2Ucs 0 4 2 none none
      = ⟨scenario2Clinics ++ [newClinicDoc 2 0 false (some 1)],
          .ok (newClinicDoc 2 0 false (some 1))⟩ :=
  (claim_C9_clinic_creation_decision scenario2Clinics scenario2Ucs 0 4 2 none none
    none none ⟨1, 0, true, none, true⟩).2.2.1 (by decide) (by decide) (by decide)

/-- C10: with existing tenant clinics but no Main Clinic at all, the next
created clinic is promoted to Main (parent null) regardless of the
requesting user's memberships; the Sub-Clinic rejection is not applied. -/
theorem claim_C10_promoted_to_main_when_no_main (clinics : List Clinic)
    (ucs : List UserClinic) (tenant userId newId : Nat) (r1 : Option Bool)
    (r2 : Option (Option Nat))
    (hne : tenantClinicCount clinics tenant ≠ 0)
    (hnomain : ∀ c ∈ clinics, c.tenant_id = tenant → c.is_main_clinic = false) :
    createClinic clinics ucs tenant userId newId r1 r2
      = ⟨clinics ++ [newClinicDoc newId tenant true none],
          .ok (newClinicDoc newId tenant true none)⟩ := by
  have hfm : findMainClinic clinics tenant = none := by
    refine List.find?_eq_none.mpr ?_
    intro c hc hp
    have hprops := of_decide_eq_true hp
    have := hnomain c hc hprops.1
    exact absurd hprops.2 (by rw [this]; exact Bool.false_ne_true)
  have hX : activeMainExists clinics tenant = false := by
    rw [Bool.eq_false_iff]
    intro hc
    rcases List.any_eq_true.mp hc with ⟨c, hcm, hcp⟩
    have hprops := of_decide_eq_true hcp
    have := hnomain c hcm hprops.1
    exact absurd hprops.2.1 (by rw [this]; exact Bool.false_ne_true)
  have hdec : clinicDecision clinics ucs tenant userId = .ok (true, none) := by
    unfold clinicDecision
    rw [if_neg hne, hfm]
  unfold createClinic
  rw [hdec]
  show createClinicDecided clinics tenant newId true none = _
  unfold createClinicDecided
  rw [validate_main_none_ok hX]

/-- An inconsistent tenant-0 state: one clinic exists and none is Main;
user 4 belongs (actively) to that non-main clinic. -/
def inconsistentClinics : List Clinic := [⟨1, 0, false, some 9, true⟩]

theorem claim_C10_witness :
    createClinic inconsistentClinics [⟨4, 1, true⟩] 0 4 2 none none
      = ⟨inconsistentClinics ++ [newClinicDoc 2 0 true none],
          .ok (newClinicDoc 2 0 true none)⟩ :=
  claim_C10_promoted_to_main_when_no_main inconsistentClinics [⟨4, 1, true⟩] 0 4 2
    none none (by decide) (by decide)

end ClincBackend
